import Mathlib

/-!
Shallow embedding of the Bluesky DM channel adapter
(src/channels/bluesky.ts, class BlueskyChannel).

The adapter is a state machine: `configure`, `start`, `stop`, `send`,
`onMessage` are the public operations, and `pollActs` / `pollStep` model one
iteration of the private polling loop `poll()`.  Network effects (login,
getLog, listConvos, sendMessage) are passed in as explicit results; thrown
exceptions are modelled with `Except`.  JS `Map` is modelled as an
association list with insert-or-update semantics, JS string truthiness as
a comparison with the empty string.  The ISO date parsing of
`new Date(sentAt).getTime()` is abstracted: `sentAt` is carried as the
resulting epoch-milliseconds number, since no property here inspects it.
-/

/-- The `AtpAgent` object as far as the adapter reads it: `agent.session?.did`
is the authenticated DID when a session exists. -/
structure AgentState where
  sessionDid : Option String
deriving DecidableEq, Repr

/-- The normalized message object handed to the registered callback
(`InboundMessage` in src/types.ts, as constructed at bluesky.ts lines 134-141). -/
structure InboundMessage where
  id : String
  groupId : String
  sender : String
  content : String
  timestamp : Nat
  channel : String
deriving DecidableEq, Repr

/-- The inner message payload of a log entry (`entry.message`), with its own
discriminator `typ` (the JSON field `$type`) and the `MessageView` fields the
adapter reads. -/
structure Msg where
  typ : String
  id : String
  senderDid : String
  text : String
  sentAt : Nat
deriving DecidableEq, Repr

/-- One raw event from `chat.bsky.convo.getLog` (`data.logs[i]`): an outer
discriminator `typ` (the JSON field `$type`), the conversation id, and an
optional inner message payload. -/
structure LogEntry where
  typ : String
  convoId : String
  message : Option Msg
deriving DecidableEq, Repr

/-- A conversation member as returned by `chat.bsky.convo.listConvos`. -/
structure Member where
  did : String
  handle : String
deriving DecidableEq, Repr

/-- A conversation as returned by `chat.bsky.convo.listConvos`. -/
structure Convo where
  members : List Member
deriving DecidableEq, Repr

/-- The result object of one `getLog` call: `data.cursor` (possibly absent)
and `data.logs`. -/
structure GetLogData where
  cursor : Option String
  logs : List LogEntry
deriving DecidableEq, Repr

/-- The mutable fields of `BlueskyChannel`.  `messageCallback` records whether
a callback is registered (the callback itself is modelled by collecting the
messages passed to it).  `didHandleMap` is the JS `Map` as an association
list. -/
structure ChannelState where
  agent : Option AgentState
  identifier : String
  password : String
  running : Bool
  messageCallback : Bool
  cursor : Option String
  didHandleMap : List (String × String)
deriving DecidableEq, Repr

/-- The state of a freshly constructed `BlueskyChannel`. -/
def initialState : ChannelState :=
  { agent := none, identifier := "", password := "",
    running := false, messageCallback := false,
    cursor := none, didHandleMap := [] }

/-- JS `Map.prototype.set`: overwrite the value when the key is present,
append otherwise. -/
def mapSet (m : List (String × String)) (k v : String) : List (String × String) :=
  if m.any (fun p => p.1 == k) then
    m.map (fun p => if p.1 = k then (k, v) else p)
  else m ++ [(k, v)]

/-- JS `Map.prototype.get`: the stored value, or `none` when absent. -/
def mapGet (m : List (String × String)) (k : String) : Option String :=
  (m.find? (fun p => p.1 == k)).map (fun p => p.2)

/-- `configure(identifier, password)`: store the credentials. -/
def configure (st : ChannelState) (identifier password : String) : ChannelState :=
  { st with identifier := identifier, password := password }

/-- `start()`: a no-op when either credential is empty (JS falsy) or when
already running; otherwise construct an agent and log in.  `loginResult` is
the outcome of `agent.login`: `ok did` on success, `error` when it throws.
The second component counts `console.error` calls made by `start`. -/
def start (st : ChannelState) (loginResult : Except Unit String) : ChannelState × Nat :=
  if st.identifier = "" ∨ st.password = "" then (st, 0)
  else if st.running then (st, 0)
  else
    match loginResult with
    | Except.error _ => ({ st with agent := none }, 1)
    | Except.ok did => ({ st with agent := some ⟨some did⟩, running := true }, 0)

/-- `stop()`: clear the running flag and drop the agent. -/
def stop (st : ChannelState) : ChannelState :=
  { st with running := false, agent := none }

/-- `onMessage(callback)`: register the callback. -/
def onMessage (st : ChannelState) : ChannelState :=
  { st with messageCallback := true }

/-- `groupId.replace(/^bsky:/, "")`: remove one leading occurrence of the
fixed channel tag, leave any other string unchanged. -/
def stripBsky (s : String) : String :=
  if "bsky:".data.isPrefixOf s.data then String.mk (s.data.drop 5) else s

/-- `send(groupId, text)`: a no-op when there is no agent; otherwise strip the
channel tag and issue exactly one `sendMessage` call.  `backend` is the remote
send call; its failure propagates (there is no try/catch in `send`).  Returns
the list of backend calls issued (convoId, text) and the overall outcome. -/
def send (st : ChannelState) (groupId text : String)
    (backend : String → String → Except Unit Unit) :
    List (String × String) × Except Unit Unit :=
  match st.agent with
  | none => ([], Except.ok ())
  | some _ =>
    let convoId := stripBsky groupId
    ([(convoId, text)], backend convoId text)

/-- `refreshDidHandleMap()`: on success upsert every member that has both a
non-empty DID and a non-empty handle (JS truthiness of `member.did &&
member.handle`); its own try/catch swallows failures silently, so on `error`
the map is unchanged and nothing is logged. -/
def refreshDidHandleMap (agent : Option AgentState) (m : List (String × String))
    (result : Except Unit (List Convo)) : List (String × String) :=
  match agent with
  | none => m
  | some _ =>
    match result with
    | Except.error _ => m
    | Except.ok convos =>
      convos.foldl (fun acc convo =>
        convo.members.foldl (fun acc2 mem =>
          if mem.did ≠ "" ∧ mem.handle ≠ "" then mapSet acc2 mem.did mem.handle
          else acc2) acc) m

/-- Sender-name resolution (bluesky.ts lines 131-132):
`didHandleMap.get(did) || did` — the cached handle unless it is absent or
falsy (empty), in which case the DID itself. -/
def resolveSender (m : List (String × String)) (did : String) : String :=
  match mapGet m did with
  | some h => if h = "" then did else h
  | none => did

/-- `this.agent.session?.did` as read at the top of the batch loop. -/
def myDidOf (st : ChannelState) : Option String :=
  match st.agent with
  | some a => a.sessionDid
  | none => none

/-- The per-event filter and normalization (loop body, bluesky.ts lines
122-141): skip outer discriminators other than logCreateMessage, skip a
missing payload or an inner discriminator other than messageView, skip our
own outbound messages, otherwise build the `InboundMessage` (empty text is JS
falsy, replaced by the placeholder). -/
def processEntry (myDid : Option String) (m : List (String × String)) (e : LogEntry) :
    Option InboundMessage :=
  if e.typ ≠ "chat.bsky.convo.defs#logCreateMessage" then none
  else
    match e.message with
    | none => none
    | some msg =>
      if msg.typ ≠ "chat.bsky.convo.defs#messageView" then none
      else if some msg.senderDid = myDid then none
      else some {
        id := msg.id,
        groupId := "bsky:" ++ e.convoId,
        sender := resolveSender m msg.senderDid,
        content := if msg.text = "" then "[Non-text message]" else msg.text,
        timestamp := msg.sentAt,
        channel := "bluesky" }

/-- Run the batch loop over the log entries.  `registered` is whether a
callback is registered (`messageCallback?.` skips the call otherwise);
`cbThrowAt = some n` means the n-th callback invocation of this iteration
throws.  Returns the messages actually passed to the callback, in order, and
whether a callback invocation threw (aborting the rest of the batch). -/
def processLogs (myDid : Option String) (m : List (String × String))
    (registered : Bool) (cbThrowAt : Option Nat) :
    List LogEntry → Nat → List InboundMessage × Bool
  | [], _ => ([], false)
  | e :: rest, n =>
    match processEntry myDid m e with
    | none => processLogs myDid m registered cbThrowAt rest n
    | some msg =>
      if registered then
        if cbThrowAt = some n then ([msg], true)
        else
          let r := processLogs myDid m registered cbThrowAt rest (n + 1)
          (msg :: r.1, r.2)
      else
        processLogs myDid m registered cbThrowAt rest n

/-- The observable actions of one poll iteration, in program order. -/
inductive PAct where
  | setCursor (c : String)
  | invoke (m : InboundMessage)
  | logPollError
deriving DecidableEq, Repr

/-- The inputs of one poll iteration: the `listConvos` outcome consumed by the
refresh step, the `getLog` outcome (`error` when the fetch expression throws),
which callback invocation throws (if any), and whether `stop()` was called
while this iteration was in flight (observed by the catch clause and by the
loop condition re-check). -/
structure PollInput where
  refreshResult : Except Unit (List Convo)
  fetchResult : Except Unit GetLogData
  cbThrowAt : Option Nat
  stopDuring : Bool

/-- One iteration of the `while` body of `poll()` as its ordered list of
observable actions.  The refresh step never throws (its catch swallows).  If
the fetch throws, the catch either breaks silently (stopped) or logs.  On a
successful fetch, a truthy `data.cursor` is stored first, then the batch loop
runs, then a callback exception (if any) reaches the same catch. -/
def pollActs (st : ChannelState) (inp : PollInput) : List PAct :=
  let runningAtCatch := st.running && !inp.stopDuring
  match inp.fetchResult with
  | Except.error _ => if runningAtCatch then [PAct.logPollError] else []
  | Except.ok data =>
    let m1 := refreshDidHandleMap st.agent st.didHandleMap inp.refreshResult
    let cursorActs : List PAct :=
      match data.cursor with
      | some c => if c = "" then [] else [PAct.setCursor c]
      | none => []
    let p := processLogs (myDidOf st) m1 st.messageCallback inp.cbThrowAt data.logs 0
    cursorActs ++ p.1.map PAct.invoke ++
      (if p.2 && runningAtCatch then [PAct.logPollError] else [])

/-- Fold one action into the stored cursor: only `setCursor` changes it. -/
def cursorFold (c : Option String) (a : PAct) : Option String :=
  match a with
  | PAct.setCursor c2 => some c2
  | _ => c

/-- Extract a callback invocation from an action. -/
def invokeOf (a : PAct) : Option InboundMessage :=
  match a with
  | PAct.invoke m => some m
  | _ => none

/-- The aggregate outcome of one poll iteration. -/
structure PollOutput where
  cursor : Option String
  didHandleMap : List (String × String)
  callbackMsgs : List InboundMessage
  loggedErrors : Nat
  continues : Bool
deriving Repr

/-- One poll iteration, summarized from `pollActs`: the stored cursor after
the iteration, the refreshed map, the callback invocations, the number of
poll errors logged, and whether the loop re-enters after the sleep
(`this.running && this.agent`, where an in-flight `stop()` clears both). -/
def pollStep (st : ChannelState) (inp : PollInput) : PollOutput :=
  let acts := pollActs st inp
  { cursor := acts.foldl cursorFold st.cursor,
    didHandleMap := refreshDidHandleMap st.agent st.didHandleMap inp.refreshResult,
    callbackMsgs := acts.filterMap invokeOf,
    loggedErrors := acts.countP (fun a => decide (a = PAct.logPollError)),
    continues := st.running && !inp.stopDuring && st.agent.isSome }

/-- The channel state after one poll iteration (the loop owns `cursor` and
`didHandleMap`; an in-flight `stop()` clears `running` and `agent`). -/
def pollStepState (st : ChannelState) (inp : PollInput) : ChannelState :=
  { st with
    cursor := (pollStep st inp).cursor,
    didHandleMap := (pollStep st inp).didHandleMap,
    running := st.running && !inp.stopDuring,
    agent := if inp.stopDuring then none else st.agent }

/-- The states a `BlueskyChannel` instance can reach: the constructor state,
closed under the public operations and under poll iterations (which only run
while the loop condition `this.running && this.agent` holds). -/
inductive Reachable : ChannelState → Prop where
  | init : Reachable initialState
  | cfg {st : ChannelState} (idf pw : String) :
      Reachable st → Reachable (configure st idf pw)
  | reg {st : ChannelState} : Reachable st → Reachable (onMessage st)
  | strt {st : ChannelState} (r : Except Unit String) :
      Reachable st → Reachable (start st r).1
  | stp {st : ChannelState} : Reachable st → Reachable (stop st)
  | poll {st : ChannelState} (inp : PollInput) : Reachable st →
      st.running = true → st.agent.isSome = true →
      Reachable (pollStepState st inp)

/-! Helper lemmas. -/

theorem stripBsky_roundtrip (c : String) : stripBsky ("bsky:" ++ c) = c := by
  obtain ⟨l⟩ := c
  have h : ("bsky:" ++ String.mk l).data = 'b' :: 's' :: 'k' :: 'y' :: ':' :: l := rfl
  simp [stripBsky, h, List.isPrefixOf]

theorem foldl_cursorFold_no_set : ∀ (l : List PAct) (c0 : Option String),
    (∀ c, PAct.setCursor c ∉ l) → l.foldl cursorFold c0 = c0
  | [], _, _ => rfl
  | a :: t, c0, h => by
    have ha : ∀ c, a ≠ PAct.setCursor c := fun c hc => h c (hc ▸ List.mem_cons_self a t)
    have hstep : cursorFold c0 a = c0 := by
      cases a with
      | setCursor c => exact absurd rfl (ha c)
      | invoke m => rfl
      | logPollError => rfl
    rw [List.foldl_cons, hstep]
    exact foldl_cursorFold_no_set t c0 (fun c hc => h c (List.mem_cons_of_mem _ hc))

theorem setCursor_not_mem_map_invoke (ms : List InboundMessage) (c : String) :
    PAct.setCursor c ∉ ms.map PAct.invoke := by
  simp

theorem setCursor_not_mem_logIf (b : Bool) (c : String) :
    PAct.setCursor c ∉ (if b then [PAct.logPollError] else []) := by
  cases b <;> simp

theorem foldl_cursorFold_tail (c0 : Option String) (ms : List InboundMessage) (b : Bool) :
    ((ms.map PAct.invoke) ++ (if b then [PAct.logPollError] else [])).foldl cursorFold c0
      = c0 := by
  rw [List.foldl_append]
  rw [foldl_cursorFold_no_set _ _ (fun c => setCursor_not_mem_map_invoke _ c)]
  exact foldl_cursorFold_no_set _ _ (fun c => setCursor_not_mem_logIf _ c)

theorem pollStep_cursor (st : ChannelState) (inp : PollInput) :
    (pollStep st inp).cursor =
      match inp.fetchResult with
      | Except.error _ => st.cursor
      | Except.ok data =>
        match data.cursor with
        | none => st.cursor
        | some c => if c = "" then st.cursor else some c := by
  show (pollActs st inp).foldl cursorFold st.cursor = _
  unfold pollActs
  cases hf : inp.fetchResult with
  | error e =>
    exact foldl_cursorFold_no_set _ _ (fun c => setCursor_not_mem_logIf _ c)
  | ok data =>
    cases hc : data.cursor with
    | none =>
      simp only [hc, List.nil_append]
      exact foldl_cursorFold_tail _ _ _
    | some c =>
      by_cases hce : c = ""
      · simp only [hc, if_pos hce, List.nil_append]
        exact foldl_cursorFold_tail _ _ _
      · simp only [hc, if_neg hce, List.cons_append, List.nil_append, List.foldl_cons]
        show List.foldl cursorFold (some c) _ = some c
        exact foldl_cursorFold_tail _ _ _

theorem filterMap_invokeOf_eq_nil (l : List PAct) (h : ∀ m, PAct.invoke m ∉ l) :
    l.filterMap invokeOf = [] := by
  induction l with
  | nil => rfl
  | cons a t ih =>
    have ha : invokeOf a = none := by
      cases a with
      | invoke m => exact absurd (List.mem_cons_self _ _) (h m)
      | setCursor c => rfl
      | logPollError => rfl
    rw [List.filterMap_cons, ha]
    exact ih (fun m hm => h m (List.mem_cons_of_mem _ hm))

theorem filterMap_invokeOf_map (ms : List InboundMessage) :
    (ms.map PAct.invoke).filterMap invokeOf = ms := by
  induction ms with
  | nil => rfl
  | cons m t ih => simp only [List.map_cons, List.filterMap_cons, invokeOf, ih]

theorem invoke_not_mem_cursorActs (o : Option String) (m : InboundMessage) :
    PAct.invoke m ∉
      (match o with
       | some c => if c = "" then [] else [PAct.setCursor c]
       | none => ([] : List PAct)) := by
  cases o with
  | none => simp
  | some c => by_cases h : c = "" <;> simp [h]

theorem invoke_not_mem_logIf (b : Bool) (m : InboundMessage) :
    PAct.invoke m ∉ (if b then [PAct.logPollError] else []) := by
  cases b <;> simp

theorem pollStep_callbackMsgs (st : ChannelState) (inp : PollInput) (data : GetLogData)
    (hf : inp.fetchResult = Except.ok data) :
    (pollStep st inp).callbackMsgs =
      (processLogs (myDidOf st)
        (refreshDidHandleMap st.agent st.didHandleMap inp.refreshResult)
        st.messageCallback inp.cbThrowAt data.logs 0).1 := by
  show (pollActs st inp).filterMap invokeOf = _
  unfold pollActs
  simp only [hf]
  rw [List.filterMap_append, List.filterMap_append]
  rw [filterMap_invokeOf_eq_nil _ (fun m => invoke_not_mem_cursorActs _ m)]
  rw [filterMap_invokeOf_eq_nil _ (fun m => invoke_not_mem_logIf _ m)]
  rw [filterMap_invokeOf_map]
  simp

theorem pollStep_err_callbackMsgs (st : ChannelState) (inp : PollInput) (e : Unit)
    (hf : inp.fetchResult = Except.error e) :
    (pollStep st inp).callbackMsgs = [] := by
  show (pollActs st inp).filterMap invokeOf = _
  unfold pollActs
  simp only [hf]
  exact filterMap_invokeOf_eq_nil _ (fun m => invoke_not_mem_logIf _ m)

theorem countP_logErr_eq_zero (l : List PAct) (h : PAct.logPollError ∉ l) :
    l.countP (fun a => decide (a = PAct.logPollError)) = 0 := by
  rw [List.countP_eq_zero]
  intro a ha
  simp only [decide_eq_true_eq]
  intro heq
  exact h (heq ▸ ha)

theorem logErr_not_mem_cursorActs (o : Option String) :
    PAct.logPollError ∉
      (match o with
       | some c => if c = "" then [] else [PAct.setCursor c]
       | none => ([] : List PAct)) := by
  cases o with
  | none => simp
  | some c => by_cases h : c = "" <;> simp [h]

theorem logErr_not_mem_map_invoke (ms : List InboundMessage) :
    PAct.logPollError ∉ ms.map PAct.invoke := by
  simp

theorem pollStep_loggedErrors (st : ChannelState) (inp : PollInput) (data : GetLogData)
    (hf : inp.fetchResult = Except.ok data) :
    (pollStep st inp).loggedErrors =
      (if (processLogs (myDidOf st)
            (refreshDidHandleMap st.agent st.didHandleMap inp.refreshResult)
            st.messageCallback inp.cbThrowAt data.logs 0).2
          && (st.running && !inp.stopDuring) then 1 else 0) := by
  show (pollActs st inp).countP _ = _
  unfold pollActs
  simp only [hf]
  rw [List.countP_append, List.countP_append]
  rw [countP_logErr_eq_zero _ (logErr_not_mem_cursorActs _)]
  rw [countP_logErr_eq_zero _ (logErr_not_mem_map_invoke _)]
  split
  · rfl
  · rfl

theorem pollStep_err_loggedErrors (st : ChannelState) (inp : PollInput) (e : Unit)
    (hf : inp.fetchResult = Except.error e) :
    (pollStep st inp).loggedErrors = (if st.running && !inp.stopDuring then 1 else 0) := by
  show (pollActs st inp).countP _ = _
  unfold pollActs
  simp only [hf]
  split
  · rfl
  · rfl

/-- Every entry of the DID-to-handle map has a non-empty key and a non-empty
value. -/
def mapWF (m : List (String × String)) : Prop :=
  ∀ p ∈ m, p.1 ≠ "" ∧ p.2 ≠ ""

theorem mapSet_wf {m : List (String × String)} {k v : String}
    (hm : mapWF m) (hk : k ≠ "") (hv : v ≠ "") : mapWF (mapSet m k v) := by
  intro p hp
  unfold mapSet at hp
  split at hp
  · obtain ⟨q, hq, hpq⟩ := List.mem_map.1 hp
    by_cases h : q.1 = k
    · rw [if_pos h] at hpq
      rw [← hpq]
      exact ⟨hk, hv⟩
    · rw [if_neg h] at hpq
      rw [← hpq]
      exact hm q hq
  · rcases List.mem_append.1 hp with h | h
    · exact hm p h
    · rw [List.mem_singleton] at h
      rw [h]
      exact ⟨hk, hv⟩

theorem foldlMembers_wf (ms : List Member) (acc : List (String × String))
    (hacc : mapWF acc) :
    mapWF (ms.foldl (fun acc2 mem =>
      if mem.did ≠ "" ∧ mem.handle ≠ "" then mapSet acc2 mem.did mem.handle
      else acc2) acc) := by
  induction ms generalizing acc with
  | nil => exact hacc
  | cons mem t ih =>
    rw [List.foldl_cons]
    apply ih
    by_cases h : mem.did ≠ "" ∧ mem.handle ≠ ""
    · rw [if_pos h]
      exact mapSet_wf hacc h.1 h.2
    · rw [if_neg h]
      exact hacc

theorem foldlConvos_wf (cs : List Convo) (acc : List (String × String))
    (hacc : mapWF acc) :
    mapWF (cs.foldl (fun acc convo =>
      convo.members.foldl (fun acc2 mem =>
        if mem.did ≠ "" ∧ mem.handle ≠ "" then mapSet acc2 mem.did mem.handle
        else acc2) acc) acc) := by
  induction cs generalizing acc with
  | nil => exact hacc
  | cons convo t ih =>
    rw [List.foldl_cons]
    exact ih _ (foldlMembers_wf _ _ hacc)

theorem refresh_wf (agent : Option AgentState) (m : List (String × String))
    (r : Except Unit (List Convo)) (hm : mapWF m) :
    mapWF (refreshDidHandleMap agent m r) := by
  unfold refreshDidHandleMap
  cases agent with
  | none => exact hm
  | some a =>
    cases r with
    | error e => exact hm
    | ok convos => exact foldlConvos_wf _ _ hm

theorem start_preserves_fields (st : ChannelState) (r : Except Unit String) :
    (start st r).1.cursor = st.cursor ∧
    (start st r).1.didHandleMap = st.didHandleMap ∧
    (start st r).1.identifier = st.identifier ∧
    (start st r).1.password = st.password ∧
    (start st r).1.messageCallback = st.messageCallback := by
  unfold start
  split
  · exact ⟨rfl, rfl, rfl, rfl, rfl⟩
  · split
    · exact ⟨rfl, rfl, rfl, rfl, rfl⟩
    · cases r with
      | error e => exact ⟨rfl, rfl, rfl, rfl, rfl⟩
      | ok did => exact ⟨rfl, rfl, rfl, rfl, rfl⟩

theorem reachable_mapWF {st : ChannelState} (h : Reachable st) :
    mapWF st.didHandleMap := by
  induction h with
  | init =>
    intro p hp
    simp [initialState] at hp
  | cfg idf pw _ ih => exact ih
  | reg _ ih => exact ih
  | strt r _ ih =>
    rw [(start_preserves_fields _ r).2.1]
    exact ih
  | stp _ ih => exact ih
  | poll inp _ hrun hag ih =>
    show mapWF (refreshDidHandleMap _ _ _)
    exact refresh_wf _ _ _ ih

theorem reachable_running_iff_agent {st : ChannelState} (h : Reachable st) :
    st.running = st.agent.isSome := by
  induction h with
  | init => rfl
  | cfg idf pw _ ih => exact ih
  | reg _ ih => exact ih
  | strt r _ ih =>
    rename_i st0 _
    by_cases h1 : st0.identifier = "" ∨ st0.password = ""
    · simp only [start, if_pos h1]
      exact ih
    · by_cases h2 : st0.running = true
      · simp only [start, if_neg h1, h2, if_pos rfl]
        exact ih
      · have h2f : st0.running = false := by
          cases hb : st0.running
          · rfl
          · exact absurd hb h2
        cases r with
        | error e => simp [start, if_neg h1, h2f]
        | ok did => simp [start, if_neg h1, h2f]
  | stp _ ih => rfl
  | poll inp _ hrun hag ih =>
    rename_i st0 _
    show (st0.running && !inp.stopDuring) = (if inp.stopDuring then none else st0.agent).isSome
    cases hsd : inp.stopDuring with
    | false =>
      simp only [Bool.not_false, Bool.and_true, if_neg Bool.false_ne_true]
      exact ih
    | true =>
      simp

theorem pollStep_continues (st : ChannelState) (inp : PollInput) :
    (pollStep st inp).continues = (st.running && !inp.stopDuring && st.agent.isSome) := rfl

theorem processLogs_all_none (myDid : Option String) (m : List (String × String))
    (registered : Bool) (cb : Option Nat) (logs : List LogEntry) (n : Nat)
    (h : ∀ e ∈ logs, processEntry myDid m e = none) :
    processLogs myDid m registered cb logs n = ([], false) := by
  induction logs generalizing n with
  | nil => rfl
  | cons e t ih =>
    show (match processEntry myDid m e with
          | none => processLogs myDid m registered cb t n
          | some msg => _) = ([], false)
    rw [h e (List.mem_cons_self _ _)]
    exact ih _ (fun e2 he2 => h e2 (List.mem_cons_of_mem _ he2))

theorem processEntry_self (d : String) (m : List (String × String)) (e : LogEntry)
    (h : ∀ msg, e.message = some msg → msg.senderDid = d) :
    processEntry (some d) m e = none := by
  by_cases h1 : e.typ ≠ "chat.bsky.convo.defs#logCreateMessage"
  · simp [processEntry, h1]
  · cases hm : e.message with
    | none => simp [processEntry, h1, hm]
    | some msg =>
      by_cases h2 : msg.typ ≠ "chat.bsky.convo.defs#messageView"
      · simp [processEntry, h1, hm, h2]
      · simp [processEntry, h1, hm, h2, h msg hm]

theorem processEntry_noise (myDid : Option String) (m : List (String × String))
    (e : LogEntry)
    (h : e.typ ≠ "chat.bsky.convo.defs#logCreateMessage" ∨
         ∀ msg, e.message = some msg → msg.typ ≠ "chat.bsky.convo.defs#messageView") :
    processEntry myDid m e = none := by
  rcases h with h | h
  · simp [processEntry, h]
  · by_cases h1 : e.typ ≠ "chat.bsky.convo.defs#logCreateMessage"
    · simp [processEntry, h1]
    · cases hm : e.message with
      | none => simp [processEntry, h1, hm]
      | some msg => simp [processEntry, h1, hm, h msg hm]

theorem processEntry_groupId (myDid : Option String) (m : List (String × String))
    (e : LogEntry) (msg : InboundMessage) (h : processEntry myDid m e = some msg) :
    msg.groupId = "bsky:" ++ e.convoId := by
  unfold processEntry at h
  split at h
  · exact Option.noConfusion h
  · split at h
    · exact Option.noConfusion h
    · split at h
      · exact Option.noConfusion h
      · split at h
        · exact Option.noConfusion h
        · injection h with h2
          rw [← h2]

theorem pollActs_ok_shape (st : ChannelState) (inp : PollInput) (data : GetLogData)
    (c : String) (hf : inp.fetchResult = Except.ok data)
    (hc : data.cursor = some c) (hne : c ≠ "") :
    ∃ rest, pollActs st inp = PAct.setCursor c :: rest ∧
      ∀ c2, PAct.setCursor c2 ∉ rest := by
  unfold pollActs
  simp only [hf, hc, if_neg hne, List.cons_append, List.nil_append]
  refine ⟨_, rfl, ?_⟩
  intro c2 hmem
  rcases List.mem_append.1 hmem with h | h
  · exact setCursor_not_mem_map_invoke _ c2 h
  · exact setCursor_not_mem_logIf _ c2 h

/-! Concrete sample states and inputs, used by the witnesses below. -/

/-- A configured channel. -/
def stCfg : ChannelState := configure initialState "alice.example" "pw"

/-- A running channel after a successful login. -/
def stRun : ChannelState := (start stCfg (Except.ok "did:me")).1

/-- The running channel with a callback registered. -/
def stRunCb : ChannelState := onMessage stRun

/-- A message-created event from another sender. -/
def msgBob : Msg :=
  { typ := "chat.bsky.convo.defs#messageView", id := "m1",
    senderDid := "did:bob", text := "hello", sentAt := 5 }

/-- A message-created log entry carrying `msgBob`. -/
def entryBob : LogEntry :=
  { typ := "chat.bsky.convo.defs#logCreateMessage", convoId := "cv1",
    message := some msgBob }

/-! Claim theorems. -/

/-- C1: the stored cursor changes only through a poll iteration whose fetch
succeeds and returns a non-empty cursor, in which case it becomes exactly
that returned cursor, for every batch (including zero events); after a fetch
that throws, or a successful fetch whose cursor is absent or empty, the
stored cursor equals its value before the call; no other operation of the
adapter (configure, onMessage, start, stop) changes the cursor. -/
theorem C1_cursor_advance (st : ChannelState) (inp : PollInput)
    (idf pw : String) (r : Except Unit String) :
    ((pollStep st inp).cursor =
      match inp.fetchResult with
      | Except.error _ => st.cursor
      | Except.ok data =>
        match data.cursor with
        | none => st.cursor
        | some c => if c = "" then st.cursor else some c) ∧
    (configure st idf pw).cursor = st.cursor ∧
    (onMessage st).cursor = st.cursor ∧
    (start st r).1.cursor = st.cursor ∧
    (stop st).cursor = st.cursor :=
  ⟨pollStep_cursor st inp, rfl, rfl, (start_preserves_fields st r).1, rfl⟩

/-- C9: for every native conversation id, the groupId built for an inbound
message is the fixed tag "bsky:" followed by that id, and the send-path strip
of that groupId returns exactly the native id — also when the native id
itself contains or starts with the tag. -/
theorem C9_groupId_roundtrip :
    (∀ c : String, stripBsky ("bsky:" ++ c) = c) ∧
    (∀ (myDid : Option String) (m : List (String × String)) (e : LogEntry)
        (msg : InboundMessage), processEntry myDid m e = some msg →
      msg.groupId = "bsky:" ++ e.convoId ∧ stripBsky msg.groupId = e.convoId) := by
  refine ⟨stripBsky_roundtrip, ?_⟩
  intro myDid m e msg h
  have hg := processEntry_groupId myDid m e msg h
  exact ⟨hg, by rw [hg, stripBsky_roundtrip]⟩

/-- A message whose native conversation id itself starts with the tag. -/
def msgW9 : InboundMessage :=
  { id := "m1", groupId := "bsky:bsky:weird", sender := "did:bob",
    content := "hello", timestamp := 0, channel := "bluesky" }

/-- The payload of `entryW9`. -/
def msgInner9 : Msg :=
  { typ := "chat.bsky.convo.defs#messageView", id := "m1",
    senderDid := "did:bob", text := "hello", sentAt := 0 }

/-- A log entry whose native conversation id itself starts with the tag. -/
def entryW9 : LogEntry :=
  { typ := "chat.bsky.convo.defs#logCreateMessage", convoId := "bsky:weird",
    message := some msgInner9 }

/-- C9 witness: the round trip at a conversation id that starts with the
tag itself. -/
theorem C9_witness :
    msgW9.groupId = "bsky:" ++ entryW9.convoId ∧
    stripBsky msgW9.groupId = entryW9.convoId :=
  C9_groupId_roundtrip.2 (some "did:me") [] entryW9 msgW9 (by decide)

/-- C8: within a poll iteration whose fetch succeeds with a non-empty
returned cursor, the cursor store is the first observable action of the
iteration: it happens before any event of the batch produces a callback
invocation, and no further cursor store follows it. -/
theorem C8_cursor_stored_first (st : ChannelState) (inp : PollInput)
    (data : GetLogData) (c : String) (hf : inp.fetchResult = Except.ok data)
    (hc : data.cursor = some c) (hne : c ≠ "") :
    ∃ rest, pollActs st inp = PAct.setCursor c :: rest ∧
      ∀ c2, PAct.setCursor c2 ∉ rest :=
  pollActs_ok_shape st inp data c hf hc hne

/-- A poll input fetching one foreign message with a fresh cursor. -/
def inpW8 : PollInput :=
  { refreshResult := Except.error (),
    fetchResult := Except.ok ⟨some "c1", [entryBob]⟩,
    cbThrowAt := none, stopDuring := false }

/-- C8 witness: on a concrete iteration with one inbound message, the action
trace starts with the cursor store. -/
theorem C8_witness :
    ∃ rest, pollActs stRunCb inpW8 = PAct.setCursor "c1" :: rest ∧
      ∀ c2, PAct.setCursor c2 ∉ rest :=
  C8_cursor_stored_first stRunCb inpW8 ⟨some "c1", [entryBob]⟩ "c1" rfl rfl (by decide)

/-- C7: when both credentials are non-empty and the adapter is not running, a
failing login makes start() log once, clear the agent, keep the adapter
stopped and the credentials (and all other fields) intact, and return rather
than rethrow (the model of start is total); start() is a no-op when already
running or when either credential is empty. -/
theorem C7_start_login_failure (st : ChannelState) (r : Except Unit String) :
    (st.identifier ≠ "" → st.password ≠ "" → st.running = false →
      ∀ e, r = Except.error e → start st r = ({ st with agent := none }, 1)) ∧
    (st.running = true → start st r = (st, 0)) ∧
    (st.identifier = "" ∨ st.password = "" → start st r = (st, 0)) := by
  refine ⟨?_, ?_, ?_⟩
  · intro h1 h2 h3 e he
    subst he
    have hor : ¬(st.identifier = "" ∨ st.password = "") := by
      rintro (h | h)
      · exact h1 h
      · exact h2 h
    simp [start, hor, h3]
  · intro h
    by_cases hor : st.identifier = "" ∨ st.password = ""
    · simp [start, hor]
    · simp [start, hor, h]
  · intro h
    simp [start, h]

/-- C7 witness: a configured, stopped channel with a failing login. -/
theorem C7_witness :
    start stCfg (Except.error ()) = ({ stCfg with agent := none }, 1) :=
  (C7_start_login_failure stCfg (Except.error ())).1 (by decide) (by decide) rfl ()
    rfl

theorem mapGet_wf_ne {m : List (String × String)} (hwf : mapWF m) {id hdl : String}
    (hget : mapGet m id = some hdl) : hdl ≠ "" := by
  unfold mapGet at hget
  obtain ⟨p, hfind, hp⟩ := Option.map_eq_some'.1 hget
  have hmem : p ∈ m := List.mem_of_find?_eq_some hfind
  rw [← hp]
  exact (hwf p hmem).2

theorem resolveSender_hit {m : List (String × String)} {id hdl : String}
    (hget : mapGet m id = some hdl) (hne : hdl ≠ "") :
    resolveSender m id = hdl := by
  unfold resolveSender
  rw [hget]
  show (if hdl = "" then id else hdl) = hdl
  rw [if_neg hne]

theorem resolveSender_miss {m : List (String × String)} {id : String}
    (hget : mapGet m id = none) : resolveSender m id = id := by
  unfold resolveSender
  rw [hget]

/-- C4: on a reachable state, send on a tagged groupId issues exactly one
backend call carrying the native conversation id and exactly the given text
when the adapter is running, and the backend outcome (success or failure) is
returned to the caller unchanged; when the adapter is not running, send makes
zero backend calls and returns successfully. -/
theorem C4_send_contract (st : ChannelState) (h : Reachable st) (g c text : String)
    (backend : String → String → Except Unit Unit) :
    (st.running = true →
      send st ("bsky:" ++ c) text backend = ([(c, text)], backend c text)) ∧
    (st.running = false → send st g text backend = ([], Except.ok ())) := by
  have hiff := reachable_running_iff_agent h
  constructor
  · intro hr
    cases ha : st.agent with
    | none =>
      rw [hr, ha] at hiff
      simp at hiff
    | some a =>
      simp only [send, ha]
      rw [stripBsky_roundtrip]
  · intro hr
    cases ha : st.agent with
    | none => simp [send, ha]
    | some a =>
      rw [hr, ha] at hiff
      simp at hiff

/-- C4 witness: on the concrete running state, one send call with the
stripped conversation id and the exact text; the backend result is passed
through. -/
theorem C4_witness :
    send stRun ("bsky:" ++ "abc123") "hi" (fun _ _ => Except.ok ())
      = ([("abc123", "hi")], Except.ok ()) :=
  (C4_send_contract stRun
    (Reachable.strt (Except.ok "did:me")
      (Reachable.cfg "alice.example" "pw" Reachable.init))
    "unused" "abc123" "hi" (fun _ _ => Except.ok ())).1 rfl

/-- C6: on a reachable state, resolution of a participant id returns the
cached handle when the id is present in the identity cache, and the id itself
verbatim when it is absent; resolution is a total pure function (it cannot
throw and performs no network call). -/
theorem C6_identity_resolution (st : ChannelState) (h : Reachable st) (id : String) :
    (∀ hdl, mapGet st.didHandleMap id = some hdl →
      resolveSender st.didHandleMap id = hdl) ∧
    (mapGet st.didHandleMap id = none → resolveSender st.didHandleMap id = id) := by
  constructor
  · intro hdl hget
    exact resolveSender_hit hget (mapGet_wf_ne (reachable_mapWF h) hget)
  · intro hget
    exact resolveSender_miss hget

/-- A poll input whose refresh result lists one conversation with one
well-formed member. -/
def inpRefresh : PollInput :=
  { refreshResult := Except.ok [⟨[⟨"did:bob", "bob.example"⟩]⟩],
    fetchResult := Except.ok ⟨none, []⟩, cbThrowAt := none, stopDuring := false }

/-- The running state after one poll iteration that cached bob. -/
def stMap : ChannelState := pollStepState stRun inpRefresh

/-- C6 witness: hit and miss on the concrete reachable cache. -/
theorem C6_witness :
    resolveSender stMap.didHandleMap "did:bob" = "bob.example" ∧
    resolveSender stMap.didHandleMap "did:carol" = "did:carol" := by
  have h6 := C6_identity_resolution stMap
    (Reachable.poll inpRefresh
      (Reachable.strt (Except.ok "did:me")
        (Reachable.cfg "alice.example" "pw" Reachable.init)) rfl rfl)
  exact ⟨(h6 "did:bob").1 "bob.example" (by decide), (h6 "did:carol").2 (by decide)⟩

/-- C10: on a reachable state, every entry of the identity cache has a
non-empty key and a non-empty value (the refresh step upserts only pairs with
both fields non-empty), so resolution of any id present in the cache returns
that cached non-empty handle (the fallback-to-id branch fires only on a
genuine miss). -/
theorem C10_cache_nonempty (st : ChannelState) (h : Reachable st) :
    (∀ p ∈ st.didHandleMap, p.1 ≠ "" ∧ p.2 ≠ "") ∧
    (∀ id hdl, mapGet st.didHandleMap id = some hdl →
      hdl ≠ "" ∧ resolveSender st.didHandleMap id = hdl) := by
  have hwf := reachable_mapWF h
  refine ⟨hwf, ?_⟩
  intro id hdl hget
  have hne := mapGet_wf_ne hwf hget
  exact ⟨hne, resolveSender_hit hget hne⟩

/-- A refresh result that also carries members with an empty DID or an empty
handle, which the refresh step must skip. -/
def inpRefresh2 : PollInput :=
  { refreshResult := Except.ok
      [⟨[⟨"did:carol", "carol.example"⟩, ⟨"", "ghost.example"⟩, ⟨"did:dan", ""⟩]⟩],
    fetchResult := Except.ok ⟨none, []⟩, cbThrowAt := none, stopDuring := false }

/-- The running state after one poll iteration over `inpRefresh2`. -/
def stMap2 : ChannelState := pollStepState stRun inpRefresh2

/-- C10 witness: the cached handle at a present id is non-empty and is what
resolution returns, on a refresh input that also offered degenerate members. -/
theorem C10_witness :
    "carol.example" ≠ "" ∧
    resolveSender stMap2.didHandleMap "did:carol" = "carol.example" :=
  (C10_cache_nonempty stMap2
    (Reachable.poll inpRefresh2
      (Reachable.strt (Except.ok "did:me")
        (Reachable.cfg "alice.example" "pw" Reachable.init)) rfl rfl)).2
    "did:carol" "carol.example" (by decide)

/-- A poll input in which the identity refresh throws (and nothing else
does), while the adapter keeps running. -/
def inpCex : PollInput :=
  { refreshResult := Except.error (),
    fetchResult := Except.ok ⟨some "c9", []⟩,
    cbThrowAt := none, stopDuring := false }

/-- C2 counterexample: the claim says every exception raised during a polling
iteration while still running — including one raised during identity refresh —
is logged by the loop.  Here the refresh call throws (refreshResult is an
error), the adapter is running, stop() was not called, yet the iteration logs
zero errors: refreshDidHandleMap swallows its exception in its own empty
catch block.  The loop does keep going. -/
theorem C2_counterexample :
    inpCex.refreshResult = Except.error () ∧
    inpCex.stopDuring = false ∧
    stRunCb.running = true ∧
    (pollStep stRunCb inpCex).loggedErrors = 0 ∧
    (pollStep stRunCb inpCex).continues = true :=
  ⟨rfl, rfl, by decide, by decide, by decide⟩

/-- C2 (amended): exceptions raised during the identity-refresh step are
swallowed silently inside that step — they are not logged — and the iteration
proceeds; every exception that reaches the loop catch (a throwing fetch, or a
throwing callback during event processing) while the adapter is still running
is logged exactly once, leaves the cursor as the iteration had set it (for a
throwing fetch, unchanged), and the loop sleeps and begins the next iteration
rather than terminating; if stop() was called while the iteration was in
flight, the loop exits without logging the exception. -/
theorem C2_loop_resilience (st : ChannelState) (inp : PollInput)
    (hrun : st.running = true) (hagent : st.agent.isSome = true) :
    (inp.stopDuring = true →
      (pollStep st inp).loggedErrors = 0 ∧ (pollStep st inp).continues = false) ∧
    (inp.stopDuring = false → ∀ e, inp.fetchResult = Except.error e →
      (pollStep st inp).loggedErrors = 1 ∧ (pollStep st inp).cursor = st.cursor ∧
      (pollStep st inp).continues = true) ∧
    (inp.stopDuring = false → ∀ data, inp.fetchResult = Except.ok data →
      (processLogs (myDidOf st)
        (refreshDidHandleMap st.agent st.didHandleMap inp.refreshResult)
        st.messageCallback inp.cbThrowAt data.logs 0).2 = true →
      (pollStep st inp).loggedErrors = 1 ∧ (pollStep st inp).continues = true) ∧
    (inp.stopDuring = false → ∀ data, inp.fetchResult = Except.ok data →
      (processLogs (myDidOf st)
        (refreshDidHandleMap st.agent st.didHandleMap inp.refreshResult)
        st.messageCallback inp.cbThrowAt data.logs 0).2 = false →
      (pollStep st inp).loggedErrors = 0 ∧ (pollStep st inp).continues = true) := by
  refine ⟨?_, ?_, ?_, ?_⟩
  · intro hsd
    constructor
    · cases hfr : inp.fetchResult with
      | error e =>
        rw [pollStep_err_loggedErrors st inp e hfr]
        simp [hsd]
      | ok data =>
        rw [pollStep_loggedErrors st inp data hfr]
        simp [hsd]
    · rw [pollStep_continues]
      simp [hsd]
  · intro hsd e hfr
    refine ⟨?_, ?_, ?_⟩
    · rw [pollStep_err_loggedErrors st inp e hfr]
      simp [hsd, hrun]
    · rw [pollStep_cursor st inp]
      simp only [hfr]
    · rw [pollStep_continues]
      simp [hsd, hrun, hagent]
  · intro hsd data hfr hthrew
    refine ⟨?_, ?_⟩
    · rw [pollStep_loggedErrors st inp data hfr, hthrew]
      simp [hsd, hrun]
    · rw [pollStep_continues]
      simp [hsd, hrun, hagent]
  · intro hsd data hfr hok
    refine ⟨?_, ?_⟩
    · rw [pollStep_loggedErrors st inp data hfr, hok]
      simp
    · rw [pollStep_continues]
      simp [hsd, hrun, hagent]

/-- A poll input whose fetch throws while the adapter keeps running. -/
def inpErr : PollInput :=
  { refreshResult := Except.ok [],
    fetchResult := Except.error (),
    cbThrowAt := none, stopDuring := false }

/-- C2 witness: a throwing fetch on the concrete running state logs exactly
once, leaves the cursor unchanged and lets the loop continue. -/
theorem C2_witness :
    (pollStep stRunCb inpErr).loggedErrors = 1 ∧
    (pollStep stRunCb inpErr).cursor = stRunCb.cursor ∧
    (pollStep stRunCb inpErr).continues = true :=
  (C2_loop_resilience stRunCb inpErr rfl rfl).2.1 rfl () rfl

theorem processLogs_cons_none (myDid : Option String) (m : List (String × String))
    (reg : Bool) (cb : Option Nat) (e : LogEntry) (t : List LogEntry) (n : Nat)
    (h : processEntry myDid m e = none) :
    processLogs myDid m reg cb (e :: t) n = processLogs myDid m reg cb t n := by
  show (match processEntry myDid m e with
        | none => processLogs myDid m reg cb t n
        | some msg =>
          if reg then
            if cb = some n then ([msg], true)
            else
              let r := processLogs myDid m reg cb t (n + 1)
              (msg :: r.1, r.2)
          else processLogs myDid m reg cb t n) = processLogs myDid m reg cb t n
  rw [h]

theorem processLogs_cons_some (myDid : Option String) (m : List (String × String))
    (reg : Bool) (cb : Option Nat) (e : LogEntry) (t : List LogEntry) (n : Nat)
    (m0 : InboundMessage) (h : processEntry myDid m e = some m0) :
    processLogs myDid m reg cb (e :: t) n =
      if reg then
        if cb = some n then ([m0], true)
        else (m0 :: (processLogs myDid m reg cb t (n + 1)).1,
              (processLogs myDid m reg cb t (n + 1)).2)
      else processLogs myDid m reg cb t n := by
  show (match processEntry myDid m e with
        | none => processLogs myDid m reg cb t n
        | some msg =>
          if reg then
            if cb = some n then ([msg], true)
            else
              let r := processLogs myDid m reg cb t (n + 1)
              (msg :: r.1, r.2)
          else processLogs myDid m reg cb t n) = _
  rw [h]

theorem processLogs_mem_source (myDid : Option String) (m : List (String × String))
    (reg : Bool) (cb : Option Nat) :
    ∀ (logs : List LogEntry) (n : Nat) (msg : InboundMessage),
      msg ∈ (processLogs myDid m reg cb logs n).1 →
      ∃ e ∈ logs, processEntry myDid m e = some msg := by
  intro logs
  induction logs with
  | nil =>
    intro n msg h
    simp [processLogs] at h
  | cons e t ih =>
    intro n msg h
    cases hpe : processEntry myDid m e with
    | none =>
      rw [processLogs_cons_none _ _ _ _ _ _ _ hpe] at h
      obtain ⟨e2, he2, hpe2⟩ := ih n msg h
      exact ⟨e2, List.mem_cons_of_mem _ he2, hpe2⟩
    | some m0 =>
      rw [processLogs_cons_some _ _ _ _ _ _ _ _ hpe] at h
      by_cases hreg : reg = true
      · rw [if_pos hreg] at h
        by_cases hcb : cb = some n
        · rw [if_pos hcb] at h
          have hm : msg = m0 := by simpa using h
          subst hm
          exact ⟨e, List.mem_cons_self _ _, hpe⟩
        · rw [if_neg hcb] at h
          rcases List.mem_cons.1 h with h1 | h1
          · subst h1
            exact ⟨e, List.mem_cons_self _ _, hpe⟩
          · obtain ⟨e2, he2, hpe2⟩ := ih (n + 1) msg h1
            exact ⟨e2, List.mem_cons_of_mem _ he2, hpe2⟩
      · rw [if_neg hreg] at h
        obtain ⟨e2, he2, hpe2⟩ := ih n msg h
        exact ⟨e2, List.mem_cons_of_mem _ he2, hpe2⟩

theorem processEntry_some_shape (myDid : Option String) (m : List (String × String))
    (e : LogEntry) (msg : InboundMessage) (h : processEntry myDid m e = some msg) :
    e.typ = "chat.bsky.convo.defs#logCreateMessage" ∧
    ∃ mv, e.message = some mv ∧ mv.typ = "chat.bsky.convo.defs#messageView" ∧
      some mv.senderDid ≠ myDid := by
  unfold processEntry at h
  split at h
  · exact Option.noConfusion h
  · rename_i h1
    split at h
    · exact Option.noConfusion h
    · rename_i mv hmv
      split at h
      · exact Option.noConfusion h
      · rename_i h2
        split at h
        · exact Option.noConfusion h
        · rename_i h3
          exact ⟨not_not.1 h1, mv, hmv, not_not.1 h2, h3⟩

theorem processLogs_skip (myDid : Option String) (m : List (String × String))
    (reg : Bool) (cb : Option Nat) (e : LogEntry)
    (he : processEntry myDid m e = none) :
    ∀ (pre post : List LogEntry) (n : Nat),
      processLogs myDid m reg cb (pre ++ e :: post) n =
        processLogs myDid m reg cb (pre ++ post) n := by
  intro pre
  induction pre with
  | nil =>
    intro post n
    simp only [List.nil_append]
    exact processLogs_cons_none _ _ _ _ _ _ _ he
  | cons a t ih =>
    intro post n
    simp only [List.cons_append]
    cases hpa : processEntry myDid m a with
    | none =>
      rw [processLogs_cons_none _ _ _ _ _ _ _ hpa,
        processLogs_cons_none _ _ _ _ _ _ _ hpa]
      exact ih post n
    | some m0 =>
      rw [processLogs_cons_some _ _ _ _ _ _ _ _ hpa,
        processLogs_cons_some _ _ _ _ _ _ _ _ hpa]
      by_cases hreg : reg = true
      · rw [if_pos hreg, if_pos hreg]
        by_cases hcb : cb = some n
        · rw [if_pos hcb, if_pos hcb]
        · rw [if_neg hcb, if_neg hcb, ih post (n + 1)]
      · rw [if_neg hreg, if_neg hreg]
        exact ih post n

/-- The input of the same iteration with one log entry removed from the
fetched batch (refresh result, returned cursor, callback behavior and stop
timing unchanged). -/
def removeEntryInput (inp : PollInput) (cursor : Option String)
    (logs : List LogEntry) : PollInput :=
  { refreshResult := inp.refreshResult, fetchResult := Except.ok ⟨cursor, logs⟩,
    cbThrowAt := inp.cbThrowAt, stopDuring := inp.stopDuring }

theorem pollStep_skip_entry (st : ChannelState) (inp : PollInput)
    (data : GetLogData) (pre post : List LogEntry) (e : LogEntry)
    (hf : inp.fetchResult = Except.ok data)
    (hlogs : data.logs = pre ++ e :: post)
    (hskip : processEntry (myDidOf st)
      (refreshDidHandleMap st.agent st.didHandleMap inp.refreshResult) e = none) :
    (pollStep st (removeEntryInput inp data.cursor (pre ++ post))).callbackMsgs
      = (pollStep st inp).callbackMsgs ∧
    (pollStep st (removeEntryInput inp data.cursor (pre ++ post))).loggedErrors
      = (pollStep st inp).loggedErrors ∧
    (pollStep st (removeEntryInput inp data.cursor (pre ++ post))).cursor
      = (pollStep st inp).cursor := by
  have hp := processLogs_skip (myDidOf st)
    (refreshDidHandleMap st.agent st.didHandleMap inp.refreshResult)
    st.messageCallback inp.cbThrowAt e hskip pre post 0
  refine ⟨?_, ?_, ?_⟩
  · rw [pollStep_callbackMsgs st (removeEntryInput inp data.cursor (pre ++ post))
      ⟨data.cursor, pre ++ post⟩ rfl]
    rw [pollStep_callbackMsgs st inp data hf, hlogs]
    simp only [removeEntryInput]
    rw [hp]
  · rw [pollStep_loggedErrors st (removeEntryInput inp data.cursor (pre ++ post))
      ⟨data.cursor, pre ++ post⟩ rfl]
    rw [pollStep_loggedErrors st inp data hf, hlogs]
    simp only [removeEntryInput]
    rw [hp]
  · rw [pollStep_cursor st (removeEntryInput inp data.cursor (pre ++ post))]
    rw [pollStep_cursor st inp]
    simp only [removeEntryInput, hf]

/-- C3: for every fetched batch — mixed batches included — no event whose
payload sender DID equals the authenticated session DID results in a
callback invocation: every invocation of the iteration originates from an
event whose payload sender differs from the session DID; removing a
self-authored event from anywhere in the batch leaves the invocations, the
logged errors and the cursor of the iteration unchanged; and a batch whose
events are all self-authored (in particular a batch of exactly one
self-authored message-created event) yields zero invocations. -/
theorem C3_self_filtering (st : ChannelState) (inp : PollInput) (data : GetLogData)
    (d : String) (hf : inp.fetchResult = Except.ok data)
    (hdid : myDidOf st = some d) :
    (∀ msg ∈ (pollStep st inp).callbackMsgs,
      ∃ e ∈ data.logs, ∃ mv, e.message = some mv ∧ mv.senderDid ≠ d ∧
        processEntry (some d)
          (refreshDidHandleMap st.agent st.didHandleMap inp.refreshResult) e
          = some msg) ∧
    (∀ pre e post, data.logs = pre ++ e :: post →
      (∀ mv, e.message = some mv → mv.senderDid = d) →
      (pollStep st (removeEntryInput inp data.cursor (pre ++ post))).callbackMsgs
        = (pollStep st inp).callbackMsgs ∧
      (pollStep st (removeEntryInput inp data.cursor (pre ++ post))).loggedErrors
        = (pollStep st inp).loggedErrors ∧
      (pollStep st (removeEntryInput inp data.cursor (pre ++ post))).cursor
        = (pollStep st inp).cursor) ∧
    ((∀ e ∈ data.logs, ∀ mv, e.message = some mv → mv.senderDid = d) →
      (pollStep st inp).callbackMsgs = []) := by
  refine ⟨?_, ?_, ?_⟩
  · intro msg hmsg
    rw [pollStep_callbackMsgs st inp data hf, hdid] at hmsg
    obtain ⟨e, he, hpe⟩ := processLogs_mem_source _ _ _ _ data.logs 0 msg hmsg
    obtain ⟨-, mv, hmv, -, h3⟩ := processEntry_some_shape _ _ _ _ hpe
    exact ⟨e, he, mv, hmv, fun hc => h3 (by rw [hc]), hpe⟩
  · intro pre e post hlogs hself
    have hskip : processEntry (myDidOf st)
        (refreshDidHandleMap st.agent st.didHandleMap inp.refreshResult) e = none := by
      rw [hdid]
      exact processEntry_self d _ e hself
    exact pollStep_skip_entry st inp data pre post e hf hlogs hskip
  · intro hall
    rw [pollStep_callbackMsgs st inp data hf, hdid]
    rw [processLogs_all_none _ _ _ _ _ _
      (fun e he => processEntry_self d _ e (hall e he))]

/-- The echo of our own outbound message. -/
def msgSelf : Msg :=
  { typ := "chat.bsky.convo.defs#messageView", id := "m2",
    senderDid := "did:me", text := "hi there", sentAt := 6 }

/-- A message-created log entry authored by the authenticated identity. -/
def entrySelf : LogEntry :=
  { typ := "chat.bsky.convo.defs#logCreateMessage", convoId := "cv1",
    message := some msgSelf }

/-- The normalized message the batch loop produces from `entryBob` over an
empty identity cache. -/
def msgBobOut : InboundMessage :=
  { id := "m1", groupId := "bsky:cv1", sender := "did:bob",
    content := "hello", timestamp := 5, channel := "bluesky" }

/-- A poll input whose batch mixes one self-authored event with one event
from another sender. -/
def inpW3 : PollInput :=
  { refreshResult := Except.ok [],
    fetchResult := Except.ok ⟨some "c2", [entrySelf, entryBob]⟩,
    cbThrowAt := none, stopDuring := false }

/-- A poll input whose batch is exactly one self-authored event. -/
def inpW3self : PollInput :=
  { refreshResult := Except.ok [],
    fetchResult := Except.ok ⟨some "c2", [entrySelf]⟩,
    cbThrowAt := none, stopDuring := false }

/-- C3 witness: on a mixed batch the only invocation originates from the
foreign sender, removing the self event changes nothing observable, and the
all-self singleton batch invokes the callback zero times. -/
theorem C3_witness :
    (∃ e ∈ [entrySelf, entryBob], ∃ mv, e.message = some mv ∧
      mv.senderDid ≠ "did:me" ∧
      processEntry (some "did:me") [] e = some msgBobOut) ∧
    ((pollStep stRunCb (removeEntryInput inpW3 (some "c2") [entryBob])).callbackMsgs
        = (pollStep stRunCb inpW3).callbackMsgs ∧
      (pollStep stRunCb (removeEntryInput inpW3 (some "c2") [entryBob])).loggedErrors
        = (pollStep stRunCb inpW3).loggedErrors ∧
      (pollStep stRunCb (removeEntryInput inpW3 (some "c2") [entryBob])).cursor
        = (pollStep stRunCb inpW3).cursor) ∧
    (pollStep stRunCb inpW3self).callbackMsgs = [] := by
  refine ⟨?_, ?_, ?_⟩
  · exact (C3_self_filtering stRunCb inpW3 ⟨some "c2", [entrySelf, entryBob]⟩
      "did:me" rfl rfl).1 msgBobOut (by decide)
  · exact (C3_self_filtering stRunCb inpW3 ⟨some "c2", [entrySelf, entryBob]⟩
      "did:me" rfl rfl).2.1 [] entrySelf [entryBob] rfl (by
        intro mv hm
        have hm2 : some msgSelf = some mv := hm
        injection hm2 with h2
        rw [← h2]
        rfl)
  · exact (C3_self_filtering stRunCb inpW3self ⟨some "c2", [entrySelf]⟩
      "did:me" rfl rfl).2.2 (by
        intro e he mv hm
        have he2 : e = entrySelf := by simpa using he
        subst he2
        have hm2 : some msgSelf = some mv := hm
        injection hm2 with h2
        rw [← h2]
        rfl)

/-- C5: for every fetched batch — mixed batches included — an event whose
outer discriminator is not logCreateMessage, or a message-created event
whose payload discriminator is not messageView, results in zero callback
invocations and no error: every invocation of the iteration originates from
a message-created event with a messageView payload; removing such a noise
event from anywhere in the batch leaves the invocations, the logged errors
and the cursor of the iteration unchanged; and a batch of noise events only
yields zero invocations and zero logged errors. -/
theorem C5_noise_skipped (st : ChannelState) (inp : PollInput) (data : GetLogData)
    (hf : inp.fetchResult = Except.ok data) :
    (∀ msg ∈ (pollStep st inp).callbackMsgs,
      ∃ e ∈ data.logs, e.typ = "chat.bsky.convo.defs#logCreateMessage" ∧
        ∃ mv, e.message = some mv ∧ mv.typ = "chat.bsky.convo.defs#messageView" ∧
          processEntry (myDidOf st)
            (refreshDidHandleMap st.agent st.didHandleMap inp.refreshResult) e
            = some msg) ∧
    (∀ pre e post, data.logs = pre ++ e :: post →
      (e.typ ≠ "chat.bsky.convo.defs#logCreateMessage" ∨
       ∀ mv, e.message = some mv → mv.typ ≠ "chat.bsky.convo.defs#messageView") →
      (pollStep st (removeEntryInput inp data.cursor (pre ++ post))).callbackMsgs
        = (pollStep st inp).callbackMsgs ∧
      (pollStep st (removeEntryInput inp data.cursor (pre ++ post))).loggedErrors
        = (pollStep st inp).loggedErrors ∧
      (pollStep st (removeEntryInput inp data.cursor (pre ++ post))).cursor
        = (pollStep st inp).cursor) ∧
    ((∀ e ∈ data.logs,
        e.typ ≠ "chat.bsky.convo.defs#logCreateMessage" ∨
        ∀ mv, e.message = some mv → mv.typ ≠ "chat.bsky.convo.defs#messageView") →
      (pollStep st inp).callbackMsgs = [] ∧ (pollStep st inp).loggedErrors = 0) := by
  refine ⟨?_, ?_, ?_⟩
  · intro msg hmsg
    rw [pollStep_callbackMsgs st inp data hf] at hmsg
    obtain ⟨e, he, hpe⟩ := processLogs_mem_source _ _ _ _ data.logs 0 msg hmsg
    obtain ⟨h1, mv, hmv, h2, -⟩ := processEntry_some_shape _ _ _ _ hpe
    exact ⟨e, he, h1, mv, hmv, h2, hpe⟩
  · intro pre e post hlogs hnoise
    exact pollStep_skip_entry st inp data pre post e hf hlogs
      (processEntry_noise _ _ e hnoise)
  · intro hall
    have hnone : ∀ e ∈ data.logs,
        processEntry (myDidOf st)
          (refreshDidHandleMap st.agent st.didHandleMap inp.refreshResult) e = none :=
      fun e he => processEntry_noise _ _ e (hall e he)
    constructor
    · rw [pollStep_callbackMsgs st inp data hf]
      rw [processLogs_all_none _ _ _ _ _ _ hnone]
    · rw [pollStep_loggedErrors st inp data hf]
      rw [processLogs_all_none _ _ _ _ _ _ hnone]
      simp

/-- A read-receipt style event: outer discriminator is not actionable. -/
def entryNoise : LogEntry :=
  { typ := "chat.bsky.convo.defs#logReadMessage", convoId := "cv1",
    message := none }

/-- A deleted-message payload: inner discriminator is not messageView. -/
def msgNoise : Msg :=
  { typ := "chat.bsky.convo.defs#deletedMessageView", id := "m3",
    senderDid := "did:bob", text := "", sentAt := 7 }

/-- A message-created log entry whose payload is not a message view. -/
def entryNoise2 : LogEntry :=
  { typ := "chat.bsky.convo.defs#logCreateMessage", convoId := "cv1",
    message := some msgNoise }

/-- A poll input whose batch mixes two noise events with one actionable
event from another sender. -/
def inpW5 : PollInput :=
  { refreshResult := Except.ok [],
    fetchResult := Except.ok ⟨some "c3", [entryNoise, entryBob, entryNoise2]⟩,
    cbThrowAt := none, stopDuring := false }

/-- A poll input whose batch holds only non-actionable events. -/
def inpW5all : PollInput :=
  { refreshResult := Except.ok [],
    fetchResult := Except.ok ⟨some "c3", [entryNoise, entryNoise2]⟩,
    cbThrowAt := none, stopDuring := false }

/-- C5 witness: on a mixed batch the only invocation originates from the
actionable message-view event, removing a noise event changes nothing
observable, and the all-noise batch yields zero invocations and zero logged
errors. -/
theorem C5_witness :
    (∃ e ∈ [entryNoise, entryBob, entryNoise2],
      e.typ = "chat.bsky.convo.defs#logCreateMessage" ∧
      ∃ mv, e.message = some mv ∧ mv.typ = "chat.bsky.convo.defs#messageView" ∧
        processEntry (some "did:me") [] e = some msgBobOut) ∧
    ((pollStep stRunCb
        (removeEntryInput inpW5 (some "c3") [entryBob, entryNoise2])).callbackMsgs
        = (pollStep stRunCb inpW5).callbackMsgs ∧
      (pollStep stRunCb
        (removeEntryInput inpW5 (some "c3") [entryBob, entryNoise2])).loggedErrors
        = (pollStep stRunCb inpW5).loggedErrors ∧
      (pollStep stRunCb
        (removeEntryInput inpW5 (some "c3") [entryBob, entryNoise2])).cursor
        = (pollStep stRunCb inpW5).cursor) ∧
    ((pollStep stRunCb inpW5all).callbackMsgs = [] ∧
      (pollStep stRunCb inpW5all).loggedErrors = 0) := by
  refine ⟨?_, ?_, ?_⟩
  · exact (C5_noise_skipped stRunCb inpW5
      ⟨some "c3", [entryNoise, entryBob, entryNoise2]⟩ rfl).1 msgBobOut (by decide)
  · exact (C5_noise_skipped stRunCb inpW5
      ⟨some "c3", [entryNoise, entryBob, entryNoise2]⟩ rfl).2.1
      [] entryNoise [entryBob, entryNoise2] rfl (Or.inl (by decide))
  · exact (C5_noise_skipped stRunCb inpW5all
      ⟨some "c3", [entryNoise, entryNoise2]⟩ rfl).2.2 (by
        intro e he
        rcases List.mem_cons.1 he with he1 | he1
        · subst he1
          exact Or.inl (by decide)
        · have he2 : e = entryNoise2 := by simpa using he1
          subst he2
          refine Or.inr ?_
          intro mv hm
          have hm2 : some msgNoise = some mv := hm
          injection hm2 with h2
          rw [← h2]
          decide)
